import Mathlib

/-!
Verification development for the log-conversion engine of `src/app.py`.

The Python source is shallowly embedded: each Python primitive used by
`generate_df` / `upload_zip` (string splitting, `json.loads`, `float()`,
`pd.to_datetime`, `sort_values(kind='quicksort')`) is modelled as an
executable Lean function over `List Char`, and the pipeline functions are
translated line by line.  Machine integers do not occur in the relevant
code paths; timestamps are modelled as civil date-times backed by `Int`
second counts, and parsed numbers as `ℚ` (exact on the integer-valued
tokens the log grammar carries).
-/

set_option maxRecDepth 10000

namespace LogsConv

/-! ## Python string primitives -/

/-- Characters Python `str.split()` (no argument) treats as whitespace
(the ASCII ones; the exotic unicode whitespace never occurs in log lines). -/
def isPySpace (c : Char) : Bool :=
  c = ' ' || c = '\t' || c = '\n' || c = '\r' || c = Char.ofNat 11 || c = Char.ofNat 12

/-- Model of Python `s.split(sep, 1)` when it succeeds in splitting:
splits at the first occurrence of `sep`; `none` when `sep` does not occur,
in which case the Python two-variable unpacking raises `ValueError`. -/
def splitFirst (sep : List Char) : List Char → Option (List Char × List Char)
  | [] => none
  | c :: rest =>
    if sep.isPrefixOf (c :: rest) then some ([], (c :: rest).drop sep.length)
    else
      match splitFirst sep rest with
      | some (a, b) => some (c :: a, b)
      | none => none

/-- Model of Python `s.rsplit(sep, 1)` when it succeeds: splits at the last
occurrence of `sep`; `none` when `sep` does not occur. -/
def splitLast (sep : List Char) : List Char → Option (List Char × List Char)
  | [] => none
  | c :: rest =>
    match splitLast sep rest with
    | some (a, b) => some (c :: a, b)
    | none =>
      if sep.isPrefixOf (c :: rest) then some ([], (c :: rest).drop sep.length)
      else none

/-- Model of Python `s.strip(set)`: removes every leading and trailing
character that belongs to `set`. -/
def stripChars (set : List Char) (s : List Char) : List Char :=
  ((s.dropWhile set.contains).reverse.dropWhile set.contains).reverse

/-- Accumulator worker for `pySplitWs`. -/
def pySplitWsAux : List Char → List Char → List (List Char)
  | acc, [] => if acc.isEmpty then [] else [acc.reverse]
  | acc, c :: rest =>
    if isPySpace c then
      if acc.isEmpty then pySplitWsAux [] rest
      else acc.reverse :: pySplitWsAux [] rest
    else pySplitWsAux (c :: acc) rest

/-- Model of Python `s.split()` (no argument): tokens separated by runs of
whitespace, with no empty tokens. -/
def pySplitWs (s : List Char) : List (List Char) :=
  pySplitWsAux [] s

/-! ## Digits -/

def digitVal (c : Char) : Nat := c.toNat - 48

def digitsVal (ds : List Char) : Nat :=
  ds.foldl (fun a c => a * 10 + digitVal c) 0

/-- Leading run of ASCII digits and the remainder. -/
def takeDigits (s : List Char) : List Char × List Char :=
  (s.takeWhile Char.isDigit, s.dropWhile Char.isDigit)

/-! ## JSON values and `json.loads`

`json.loads` returns a Python object; the embedding keeps the resulting
value tree.  Numbers are kept exactly as rationals (the payload fields are
opaque to the engine, so the binary-float rounding Python applies to
non-integer literals is irrelevant to every claim).  The nonstandard
`NaN`/`Infinity` literals Python additionally accepts are outside the
model's domain; no claim concerns them. -/

inductive PyJson where
  | null : PyJson
  | bool : Bool → PyJson
  | num : ℚ → PyJson
  | str : List Char → PyJson
  | arr : List PyJson → PyJson
  | obj : List (List Char × PyJson) → PyJson

/-- True exactly on JSON objects, i.e. the Python values owning `.get`. -/
def PyJson.isObj : PyJson → Bool
  | .obj _ => true
  | _ => false

def isJsonWs (c : Char) : Bool :=
  c = ' ' || c = '\t' || c = '\n' || c = '\r'

def skipWs (s : List Char) : List Char := s.dropWhile isJsonWs

def hexVal (c : Char) : Option Nat :=
  if c.isDigit then some (c.toNat - 48)
  else if 'a' ≤ c && c ≤ 'f' then some (c.toNat - 87)
  else if 'A' ≤ c && c ≤ 'F' then some (c.toNat - 55)
  else none

/-- JSON string body after the opening quote; returns the decoded
characters and the remainder after the closing quote.  Handles the
standard escapes; a `\uXXXX` escape becomes the code point directly
(surrogate-pair recombination, which no claim exercises, is omitted). -/
def parseJStr : Nat → List Char → Option (List Char × List Char)
  | 0, _ => none
  | _, [] => none
  | fuel + 1, c :: rest =>
    if c = '"' then some ([], rest)
    else if c = '\\' then
      match rest with
      | [] => none
      | e :: rest2 =>
        let cont (d : Char) (r : List Char) : Option (List Char × List Char) :=
          match parseJStr fuel r with
          | some (t, r2) => some (d :: t, r2)
          | none => none
        if e = '"' then cont '"' rest2
        else if e = '\\' then cont '\\' rest2
        else if e = '/' then cont '/' rest2
        else if e = 'b' then cont (Char.ofNat 8) rest2
        else if e = 'f' then cont (Char.ofNat 12) rest2
        else if e = 'n' then cont '\n' rest2
        else if e = 'r' then cont '\r' rest2
        else if e = 't' then cont '\t' rest2
        else if e = 'u' then
          match rest2 with
          | h1 :: h2 :: h3 :: h4 :: rest3 =>
            match hexVal h1, hexVal h2, hexVal h3, hexVal h4 with
            | some a, some b, some cc, some d =>
              cont (Char.ofNat (((a * 16 + b) * 16 + cc) * 16 + d)) rest3
            | _, _, _, _ => none
          | _ => none
        else none
    else
      match parseJStr fuel rest with
      | some (t, r2) => some (c :: t, r2)
      | none => none

/-- Strict JSON number grammar: `-? int frac? exp?` with `int` either `0`
or a nonzero-led digit run, exactly as Python's `json` module accepts. -/
def parseJNum (s : List Char) : Option (ℚ × List Char) :=
  let (sign, s1) : ℚ × List Char :=
    match s with
    | '-' :: r => (-1, r)
    | _ => (1, s)
  let (ip, s2) := takeDigits s1
  if ip.isEmpty then none
  else if ip.length > 1 && (ip.headD '1' == '0') then none
  else
    let (fp, s3) : List Char × List Char :=
      match s2 with
      | '.' :: r =>
        let (d, r2) := takeDigits r
        if d.isEmpty then ([], s2) else (d, r2)
      | _ => ([], s2)
    let (ex, s4) : Option Int × List Char :=
      match s3 with
      | 'e' :: r | 'E' :: r =>
        let (esign, r1) : Int × List Char :=
          match r with
          | '+' :: r2 => (1, r2)
          | '-' :: r2 => (-1, r2)
          | _ => (1, r)
        let (ed, r2) := takeDigits r1
        if ed.isEmpty then (none, s3) else (some (esign * digitsVal ed), r2)
      | _ => (some 0, s3)
    match ex with
    | none => none
    | some e =>
      let base : ℚ := sign * (digitsVal (ip ++ fp) : ℚ) / ((10 : ℚ) ^ fp.length)
      let v : ℚ := if e ≥ 0 then base * (10 : ℚ) ^ e.toNat else base / (10 : ℚ) ^ (-e).toNat
      some (v, s4)

mutual

/-- One JSON value; consumes leading whitespace. -/
def parseJVal : Nat → List Char → Option (PyJson × List Char)
  | 0, _ => none
  | fuel + 1, s =>
    match skipWs s with
    | [] => none
    | c :: rest =>
      if c = '{' then
        match skipWs rest with
        | '}' :: r2 => some (.obj [], r2)
        | r1 => parseJMembers fuel r1 []
      else if c = '[' then
        match skipWs rest with
        | ']' :: r2 => some (.arr [], r2)
        | r1 => parseJItems fuel r1 []
      else if c = '"' then
        match parseJStr (rest.length + 1) rest with
        | some (t, r2) => some (.str t, r2)
        | none => none
      else if c = 't' then
        match rest with
        | 'r' :: 'u' :: 'e' :: r2 => some (.bool true, r2)
        | _ => none
      else if c = 'f' then
        match rest with
        | 'a' :: 'l' :: 's' :: 'e' :: r2 => some (.bool false, r2)
        | _ => none
      else if c = 'n' then
        match rest with
        | 'u' :: 'l' :: 'l' :: r2 => some (.null, r2)
        | _ => none
      else
        match parseJNum (c :: rest) with
        | some (q, r2) => some (.num q, r2)
        | none => none

/-- Members of an object, after the opening brace (first key expected). -/
def parseJMembers : Nat → List Char → List (List Char × PyJson) →
    Option (PyJson × List Char)
  | 0, _, _ => none
  | fuel + 1, s, acc =>
    match skipWs s with
    | '"' :: rest =>
      match parseJStr (rest.length + 1) rest with
      | none => none
      | some (k, r1) =>
        match skipWs r1 with
        | ':' :: r2 =>
          match parseJVal fuel r2 with
          | none => none
          | some (v, r3) =>
            match skipWs r3 with
            | ',' :: r4 => parseJMembers fuel r4 (acc ++ [(k, v)])
            | '}' :: r4 => some (.obj (acc ++ [(k, v)]), r4)
            | _ => none
        | _ => none
    | _ => none

/-- Items of an array, after the opening bracket (first item expected). -/
def parseJItems : Nat → List Char → List PyJson → Option (PyJson × List Char)
  | 0, _, _ => none
  | fuel + 1, s, acc =>
    match parseJVal fuel s with
    | none => none
    | some (v, r1) =>
      match skipWs r1 with
      | ',' :: r2 => parseJItems fuel r2 (acc ++ [v])
      | ']' :: r2 => some (.arr (acc ++ [v]), r2)
      | _ => none

end

/-- Model of Python `json.loads`: one value, surrounding whitespace
allowed, trailing non-whitespace (`Extra data`) is an error. -/
def pyJsonLoads (s : List Char) : Option PyJson :=
  match parseJVal (s.length + 2) s with
  | some (v, rest) => if (skipWs rest).isEmpty then some v else none
  | none => none

/-- Model of `dict.get(k)` on a decoded JSON object.  Python's `json`
keeps the last of duplicate keys, and a key bound to JSON `null` is
indistinguishable from a missing key (both give Python `None`), so the
lookup collapses `null` to `none` as the dictionary consumer does. -/
def objGet (kvs : List (List Char × PyJson)) (k : List Char) : Option PyJson :=
  match kvs.reverse.find? (fun kv => kv.1 == k) with
  | some (_, PyJson.null) => none
  | some (_, v) => some v
  | none => none

/-! ## Python `float(str)` -/

/-- The syntactic content of an accepted Python float literal: sign,
integer digits, fractional digits, exponent. -/
structure FloatParts where
  neg : Bool
  intDigits : List Char
  fracDigits : List Char
  exp : Int
deriving DecidableEq, Repr

/-- Syntactic phase of Python `float(token)` restricted to decimal
literals: optional surrounding whitespace, optional sign, digits with
optional decimal point and optional exponent.  The `inf`/`nan` spellings
and digit underscores Python also accepts are outside the model's
domain; no claim exercises them (an accepting parse there would, like
any accepted token, produce a non-null field, and `nan` cells serialize
as null downstream). -/
def pyFloatParts (s0 : List Char) : Option FloatParts :=
  let s := (stripChars [' ', '\t', '\n', '\r', Char.ofNat 11, Char.ofNat 12] s0)
  let (neg, s1) : Bool × List Char :=
    match s with
    | '-' :: r => (true, r)
    | '+' :: r => (false, r)
    | _ => (false, s)
  let (ip, s2) := takeDigits s1
  let (fp, s3) :=
    match s2 with
    | '.' :: r => takeDigits r
    | _ => ([], s2)
  if ip.isEmpty && fp.isEmpty then none
  else
    let hadPoint : Bool := match s2 with | '.' :: _ => true | _ => false
    let afterMant := if hadPoint then s3 else s2
    let (ex, s4) : Option Int × List Char :=
      match afterMant with
      | 'e' :: r | 'E' :: r =>
        let (esign, r1) : Int × List Char :=
          match r with
          | '+' :: r2 => (1, r2)
          | '-' :: r2 => (-1, r2)
          | _ => (1, r)
        let (ed, r2) := takeDigits r1
        if ed.isEmpty then (none, afterMant) else (some (esign * digitsVal ed), r2)
      | _ => (some 0, afterMant)
    match ex with
    | none => none
    | some e => if s4.isEmpty then some ⟨neg, ip, fp, e⟩ else none

/-- Numeric value of an accepted float literal, as an exact rational. -/
def ratOfParts (p : FloatParts) : ℚ :=
  let base : ℚ := (digitsVal (p.intDigits ++ p.fracDigits) : ℚ) / (10 : ℚ) ^ p.fracDigits.length
  let signed : ℚ := if p.neg then -base else base
  if p.exp ≥ 0 then signed * (10 : ℚ) ^ p.exp.toNat else signed / (10 : ℚ) ^ (-p.exp).toNat

/-- Model of Python `float(token)` on its decimal-literal domain. -/
def pyFloat (s : List Char) : Option ℚ :=
  (pyFloatParts s).map ratOfParts

/-! ## Civil timestamps

Timestamps are timezone-naive civil date-times; instants are mapped to
and from a day count / second count with the standard proleptic-Gregorian
conversions (the same arithmetic underlying the datetime libraries the
source leans on). -/

structure NaiveDT where
  year : Int
  month : Nat
  day : Nat
  hour : Nat
  minute : Nat
  second : Nat
deriving DecidableEq, Repr

/-- Days from 1970-01-01 to the given civil date (proleptic Gregorian). -/
def daysFromCivil (y : Int) (m d : Nat) : Int :=
  let yy : Int := if m ≤ 2 then y - 1 else y
  let era : Int := yy.fdiv 400
  let yoe : Int := yy - era * 400
  let mp : Int := if m ≤ 2 then (m : Int) + 9 else (m : Int) - 3
  let doy : Int := (153 * mp + 2).fdiv 5 + (d : Int) - 1
  let doe : Int := yoe * 365 + yoe.fdiv 4 - yoe.fdiv 100 + doy
  era * 146097 + doe - 719468

/-- Civil date of a day count relative to 1970-01-01. -/
def civilFromDays (z0 : Int) : Int × Nat × Nat :=
  let z := z0 + 719468
  let era := z.fdiv 146097
  let doe : Int := z - era * 146097
  let yoe := (doe - doe.fdiv 1460 + doe.fdiv 36524 - doe.fdiv 146096).fdiv 365
  let doy := doe - (365 * yoe + yoe.fdiv 4 - yoe.fdiv 100)
  let mp := (5 * doy + 2).fdiv 153
  let d := doy - (153 * mp + 2).fdiv 5 + 1
  let m := if mp < 10 then mp + 3 else mp - 9
  let y := yoe + era * 400 + (if m ≤ 2 then 1 else 0)
  (y, m.toNat, d.toNat)

/-- Seconds from the epoch to a civil timestamp. -/
def toSecs (t : NaiveDT) : Int :=
  daysFromCivil t.year t.month t.day * 86400
    + (t.hour : Int) * 3600 + (t.minute : Int) * 60 + (t.second : Int)

/-- Civil timestamp of a second count. -/
def ofSecs (n : Int) : NaiveDT :=
  let days := n.fdiv 86400
  let sod := (n - days * 86400).toNat
  match civilFromDays days with
  | (y, m, d) => ⟨y, m, d, sod / 3600, sod % 3600 / 60, sod % 60⟩

def isLeap (y : Int) : Bool :=
  (y.emod 4 == 0 && y.emod 100 != 0) || y.emod 400 == 0

def daysInMonth (y : Int) (m : Nat) : Nat :=
  if m = 2 then (if isLeap y then 29 else 28)
  else if m = 4 ∨ m = 6 ∨ m = 9 ∨ m = 11 then 30
  else 31

/-- Field validity of a parsed civil timestamp (what the datetime
construction underneath the timestamp parsers enforces). -/
def validDT (y : Int) (mo d h mi s : Nat) : Bool :=
  1 ≤ mo && mo ≤ 12 && 1 ≤ d && d ≤ daysInMonth y mo && h < 24 && mi < 60 && s < 60

/-! ## Timestamp parsing (`pd.to_datetime(..., errors="coerce")`)

`generate_df` hands the raw timestamp column to `pd.to_datetime` with no
format argument: pandas guesses a format (from the first non-null
element of the column) and parses, coercing failures to `NaT`.  The
model is per-element and covers the two shapes the guesser resolves that
the claims exercise: the full `%Y-%m-%d %H:%M:%S` shape (the one the log
grammar produces) and the date-only `%Y-%m-%d` shape (parsed to
midnight).  The per-element simplification is exact on the inputs the
claims touch: a homogeneous full-format column parses element by
element, and the date-only counterexample uses a single-element column,
whose guessed format is its own.  Pandas accepts further shapes still;
their existence only widens the gap between the code and the
fixed-format reading, and none is needed by any claim. -/

/-- Parse with `%Y-%m-%d %H:%M:%S` in strptime fashion: four year digits,
one or two digits elsewhere, whole string consumed, fields valid. -/
def parseFull (s : List Char) : Option NaiveDT :=
  let (yd, r1) := takeDigits s
  if yd.length = 4 then
    match r1 with
    | '-' :: r2 =>
      let (md, r3) := takeDigits r2
      if 1 ≤ md.length ∧ md.length ≤ 2 then
        match r3 with
        | '-' :: r4 =>
          let (dd, r5) := takeDigits r4
          if 1 ≤ dd.length ∧ dd.length ≤ 2 then
            match r5 with
            | ' ' :: r6 =>
              let (hd, r7) := takeDigits r6
              if 1 ≤ hd.length ∧ hd.length ≤ 2 then
                match r7 with
                | ':' :: r8 =>
                  let (nd, r9) := takeDigits r8
                  if 1 ≤ nd.length ∧ nd.length ≤ 2 then
                    match r9 with
                    | ':' :: r10 =>
                      let (sd, r11) := takeDigits r10
                      if (1 ≤ sd.length ∧ sd.length ≤ 2) ∧ r11 = [] then
                        let y : Int := digitsVal yd
                        if validDT y (digitsVal md) (digitsVal dd)
                            (digitsVal hd) (digitsVal nd) (digitsVal sd) then
                          some ⟨y, digitsVal md, digitsVal dd,
                                digitsVal hd, digitsVal nd, digitsVal sd⟩
                        else none
                      else none
                    | _ => none
                  else none
                | _ => none
              else none
            | _ => none
          else none
        | _ => none
      else none
    | _ => none
  else none

/-- Parse with `%Y-%m-%d` in strptime fashion; midnight time fields. -/
def parseDateOnly (s : List Char) : Option NaiveDT :=
  let (yd, r1) := takeDigits s
  if yd.length = 4 then
    match r1 with
    | '-' :: r2 =>
      let (md, r3) := takeDigits r2
      if 1 ≤ md.length ∧ md.length ≤ 2 then
        match r3 with
        | '-' :: r4 =>
          let (dd, r5) := takeDigits r4
          if (1 ≤ dd.length ∧ dd.length ≤ 2) ∧ r5 = [] then
            let y : Int := digitsVal yd
            if validDT y (digitsVal md) (digitsVal dd) 0 0 0 then
              some ⟨y, digitsVal md, digitsVal dd, 0, 0, 0⟩
            else none
          else none
        | _ => none
      else none
    | _ => none
  else none

/-- Per-element model of `pd.to_datetime(col, errors="coerce", utc=True)`
before the timezone step: flexible parsing, `none` standing for `NaT`. -/
def pdParse (s : List Char) : Option NaiveDT :=
  match parseFull s with
  | some t => some t
  | none => parseDateOnly s

/-- Modelled from the spec: the spec's fixed configurable input format
`YYYY-MM-DD HH:MM:SS` — the zero-padded nineteen-character shape with
valid field values.  This definition exists only to be compared with the
source-derived `pdParse`; nothing in `src/app.py` restricts parsing to
it. -/
def strptimeFixed (s : List Char) : Option NaiveDT :=
  match s with
  | [y1, y2, y3, y4, c1, m1, m2, c2, d1, d2, c3, h1, h2, c4, n1, n2, c5, s1, s2] =>
    if c1 = '-' ∧ c2 = '-' ∧ c3 = ' ' ∧ c4 = ':' ∧ c5 = ':'
        ∧ ([y1, y2, y3, y4, m1, m2, d1, d2, h1, h2, n1, n2, s1, s2].all Char.isDigit) then
      let y : Int := digitsVal [y1, y2, y3, y4]
      if validDT y (digitsVal [m1, m2]) (digitsVal [d1, d2])
          (digitsVal [h1, h2]) (digitsVal [n1, n2]) (digitsVal [s1, s2]) then
        some ⟨y, digitsVal [m1, m2], digitsVal [d1, d2],
              digitsVal [h1, h2], digitsVal [n1, n2], digitsVal [s1, s2]⟩
      else none
    else none
  | _ => none

/-! ## Timezone configuration (`src/app.py` lines 11-13) -/

/-- Offset of `ZoneInfo("Asia/Colombo")` from UTC, in seconds: +05:30.
The zone has used this fixed offset since 2006; every instant the
repository's log format produces in practice, and every instant a claim
mentions, falls in that regime, so the model uses the constant offset. -/
def LOCAL_TZ_OFFSET : Int := 19800

def ASSUME_LOGS_ARE_UTC : Bool := true

/-- Interpret a parsed instant as UTC, convert into the canonical local
zone, and drop the zone: the `tz_convert(LOCAL_TZ).tz_localize(None)`
step of `generate_df`. -/
def istOfUtc (t : NaiveDT) : NaiveDT :=
  ofSecs (toSecs t + LOCAL_TZ_OFFSET)

/-- Full per-element timestamp normalization of `generate_df` lines
70-79: flexible parse, then (under `ASSUME_LOGS_ARE_UTC`) the UTC→local
conversion; `none` for a coerced `NaT`, which `dropna` removes. -/
def normalizeTs (s : List Char) : Option NaiveDT :=
  if ASSUME_LOGS_ARE_UTC then (pdParse s).map istOfUtc
  else pdParse s

/-! ## The line recognizer (`generate_df` lines 26-64)

The body of the per-line `try` block, as an `Option`-valued total
function: every Python exception path (failed unpacking of a split,
the explicit `ValueError` on short token lists, a `json.loads` failure,
and the `AttributeError` a non-dict payload raises at `data.get`) is a
`none`, which the `except` clause turns into a skipped, counted line. -/

structure Parsed where
  tsRaw : List Char
  url : List Char
  status : List Char
  rtRaw : List Char
  payload : List (List Char × PyJson)

def sepHead : List Char := [']', ' ', '[']
def sepDash : List Char := [' ', '-', ' ']
def sepTail : List Char := [']', ' ']
def bracketSet : List Char := ['[', ']']

def recognizeP (line : List Char) : Option Parsed :=
  match splitFirst sepHead line with
  | none => none
  | some (firstPart, rest0) =>
    match splitFirst sepDash (stripChars bracketSet firstPart) with
    | none => none
    | some (timestampStr, _sev) =>
      match splitLast sepTail rest0 with
      | none => none
      | some (msgTail, jsonPayload) =>
        let parts := pySplitWs msgTail
        if parts.length < 5 then none
        else
          match pyJsonLoads jsonPayload with
          | none => none
          | some (PyJson.obj kvs) =>
            some ⟨timestampStr, parts.getD 2 [], parts.getD 3 [], parts.getD 4 [], kvs⟩
          | some _ => none

/-- The `stayed_time` computation (lines 44-47): numeric parse attempted
only for status `"200"`, a failed parse caught to `None`. -/
def stayedOf (status rtRaw : List Char) : Option ℚ :=
  if status = "200".toList then pyFloat rtRaw else none

/-- One appended row (lines 49-60), timestamp still the raw string. -/
structure Row where
  serviceId : Option PyJson
  vno : Option PyJson
  ano : Option PyJson
  rtArea : Option PyJson
  url : List Char
  stayedTime : Option ℚ
  appVersion : Option PyJson
  tsRaw : List Char

def rowOfParsed (p : Parsed) : Row :=
  { serviceId := objGet p.payload "sid".toList
    vno := objGet p.payload "vno".toList
    ano := objGet p.payload "ano".toList
    rtArea := objGet p.payload "rtarea".toList
    url := p.url
    stayedTime := stayedOf p.status p.rtRaw
    appVersion := objGet p.payload "appVer".toList
    tsRaw := p.tsRaw }

def recognizeRow (line : List Char) : Option Row :=
  (recognizeP line).map rowOfParsed

/-- A row after the timestamp column has been normalized. -/
structure NormRow where
  serviceId : Option PyJson
  vno : Option PyJson
  ano : Option PyJson
  rtArea : Option PyJson
  url : List Char
  stayedTime : Option ℚ
  appVersion : Option PyJson
  timestamp : NaiveDT

def normOfRow (r : Row) (t : NaiveDT) : NormRow :=
  { serviceId := r.serviceId, vno := r.vno, ano := r.ano, rtArea := r.rtArea
    url := r.url, stayedTime := r.stayedTime, appVersion := r.appVersion
    timestamp := t }

/-- `generate_df` on one file's lines: recognize each line in order, then
normalize the timestamp column and drop the rows whose timestamp coerced
to `NaT`, preserving within-file order throughout.  Lines are modelled
without their trailing newline: the newline can only reach the JSON
payload segment (everything after the last `"] "`), where `json.loads`
ignores surrounding whitespace, so the outcome per line is unchanged.
The source batches the timestamp work over the whole column after
collecting rows; since the model's parse is per-element, the
filterMap-after-filterMap form is the same computation. -/
def generateDf (lines : List (List Char)) : List NormRow :=
  ((lines.filterMap recognizeRow).filterMap
    fun r => (normalizeTs r.tsRaw).map (normOfRow r))

/-! ## The merge sort (`upload_zip` lines 116-117)

`merged_df.sort_values("Timestamp")` uses pandas' default
`kind='quicksort'`, which for a datetime64 column is numpy's generic
introspective argsort (`npysort` aquicksort: median-of-3 quicksort with
an explicit stack, insertion sort below 16 elements, heapsort beyond the
depth limit).  The functions below translate that algorithm; `v` is the
read-only key array and `idx` the permutation being produced.  The
recursions are fuel-bounded with fuel large enough for the bounded work
the algorithm performs. -/

/-- Position of the most significant bit (`npy_get_msb`). -/
def npyGetMsb (n : Nat) : Nat := Nat.log2 n

def SMALL_QUICKSORT : Nat := 15

/-- Array read with an irrelevant default; the algorithm never reads out
of bounds (the median-of-3 preparation plants sentinels). -/
def aGet (a : Array Nat) (i : Nat) : Nat := a.getD i 0

def keyAt (v : Array Int) (a : Array Nat) (i : Nat) : Int := v.getD (aGet a i) 0

def aSwap (a : Array Nat) (i j : Nat) : Array Nat :=
  let x := aGet a i
  let y := aGet a j
  (a.setD i y).setD j x

/-- The `do ++pi; while (v[*pi] < vp)` scan. -/
def scanUp (v : Array Int) (a : Array Nat) (vp : Int) : Nat → Nat → Nat
  | 0, i => i + 1
  | fuel + 1, i =>
    if keyAt v a (i + 1) < vp then scanUp v a vp fuel (i + 1) else i + 1

/-- The `do --pj; while (vp < v[*pj])` scan. -/
def scanDown (v : Array Int) (a : Array Nat) (vp : Int) : Nat → Nat → Nat
  | 0, j => j - 1
  | fuel + 1, j =>
    if vp < keyAt v a (j - 1) then scanDown v a vp fuel (j - 1) else j - 1

/-- The partition exchange loop; returns the final `pi` and the updated
index array. -/
def partLoop (v : Array Int) (vp : Int) :
    Nat → Array Nat → Nat → Nat → Array Nat × Nat
  | 0, a, i, _ => (a, i)
  | fuel + 1, a, i, j =>
    let i' := scanUp v a vp (a.size + 1) i
    let j' := scanDown v a vp (a.size + 1) j
    if i' ≥ j' then (a, i')
    else partLoop v vp fuel (aSwap a i' j') i' j'

/-- Insertion-sort shift loop for one element (`while (pj > pl && ...)`). -/
def insShift (v : Array Int) (vp : Int) (vi : Nat) (pl : Nat) :
    Nat → Array Nat → Nat → Array Nat
  | 0, a, pj => a.setD pj vi
  | fuel + 1, a, pj =>
    if pl < pj ∧ vp < keyAt v a (pj - 1) then
      insShift v vp vi pl fuel (a.setD pj (aGet a (pj - 1))) (pj - 1)
    else a.setD pj vi

/-- Insertion sort of `idx[pl..pr]` by key (the small-range phase). -/
def insSortRange (v : Array Int) (pl pr : Nat) :
    Nat → Array Nat → Nat → Array Nat
  | 0, a, _ => a
  | fuel + 1, a, pi =>
    if pi ≤ pr then
      let vi := aGet a pi
      let vp := v.getD vi 0
      let a' := insShift v vp vi pl (a.size + 1) a pi
      insSortRange v pl pr fuel a' (pi + 1)
    else a

/-- Sift loop of `aheapsort` (`for (i=l, j=l*2; j<=n;)`), on the 1-based
view `a[k] = idx[off + k - 1]`; returns the updated array and final `i`. -/
def heapSift (v : Array Int) (off : Nat) (tmp : Nat) (n : Nat) :
    Nat → Array Nat → Nat → Nat → Array Nat × Nat
  | 0, a, i, _ => (a, i)
  | fuel + 1, a, i, j =>
    if j ≤ n then
      let j1 := if j < n ∧ keyAt v a (off + j - 1) < keyAt v a (off + j) then j + 1 else j
      if v.getD tmp 0 < keyAt v a (off + j1 - 1) then
        heapSift v off tmp n fuel (a.setD (off + i - 1) (aGet a (off + j1 - 1))) j1 (j1 + j1)
      else (a, i)
    else (a, i)

/-- Heap construction loop of `aheapsort` (`for (l = n>>1; l > 0; --l)`). -/
def heapBuild (v : Array Int) (off n : Nat) :
    Nat → Array Nat → Nat → Array Nat
  | 0, a, _ => a
  | fuel + 1, a, l =>
    if l = 0 then a
    else
      let tmp := aGet a (off + l - 1)
      let (a', i) := heapSift v off tmp n (n + 2) a l (l * 2)
      heapBuild v off n fuel (a'.setD (off + i - 1) tmp) (l - 1)

/-- Extraction loop of `aheapsort` (`for (; n > 1;)`). -/
def heapExtract (v : Array Int) (off : Nat) :
    Nat → Array Nat → Nat → Array Nat
  | 0, a, _ => a
  | fuel + 1, a, n =>
    if n ≤ 1 then a
    else
      let tmp := aGet a (off + n - 1)
      let a1 := a.setD (off + n - 1) (aGet a off)
      let n' := n - 1
      let (a2, i) := heapSift v off tmp n' (n' + 2) a1 1 2
      heapExtract v off fuel (a2.setD (off + i - 1) tmp) n'

/-- `aheapsort` on the subrange `idx[pl..pr]` (the introsort depth-limit
fallback). -/
def aHeapsort (v : Array Int) (pl pr : Nat) (a : Array Nat) : Array Nat :=
  let n := pr + 1 - pl
  heapExtract v pl (n + 1) (heapBuild v pl n (n + 1) a (n / 2)) n

/-- Main introsort driver: the `for (;;)` / `while (pr - pl > 15)` loops
of numpy's aquicksort with the explicit range stack and the shared,
mutable depth counter. -/
def qsDriver (v : Array Int) :
    Nat → Array Nat → List (Nat × Nat) → Nat → Nat → Int → Array Nat
  | 0, a, _, _, _, _ => a
  | fuel + 1, a, stack, pl, pr, depth =>
    if pr - pl > SMALL_QUICKSORT then
      if depth < 0 then
        -- depth limit exhausted: heapsort this range, then pop
        let a' := aHeapsort v pl pr a
        match stack with
        | [] => a'
        | (pl', pr') :: stack' => qsDriver v fuel a' stack' pl' pr' (depth - 1)
      else
        -- median-of-3 pivot selection
        let pm := pl + (pr - pl) / 2
        let a1 := if keyAt v a pm < keyAt v a pl then aSwap a pm pl else a
        let a2 := if keyAt v a1 pr < keyAt v a1 pm then aSwap a1 pr pm else a1
        let a3 := if keyAt v a2 pm < keyAt v a2 pl then aSwap a2 pm pl else a2
        let vp := keyAt v a3 pm
        let a4 := aSwap a3 pm (pr - 1)
        let (a5, pi) := partLoop v vp (a4.size + 1) a4 pl (pr - 1)
        let a6 := aSwap a5 pi (pr - 1)
        -- recurse into the smaller side; push the larger
        if pi - pl < pr - pi then
          qsDriver v fuel a6 ((pi + 1, pr) :: stack) pl (pi - 1) (depth - 1)
        else
          qsDriver v fuel a6 ((pl, pi - 1) :: stack) (pi + 1) pr (depth - 1)
    else
      let a' := insSortRange v pl pr (pr + 2 - pl) a (pl + 1)
      match stack with
      | [] => a'
      | (pl', pr') :: stack' => qsDriver v fuel a' stack' pl' pr' depth

/-- `np.argsort(v, kind='quicksort')`: the identity permutation run
through the introsort driver. -/
def npyArgsortQ (v : Array Int) : Array Nat :=
  let n := v.size
  if n ≤ 1 then (Array.range n)
  else qsDriver v (4 * n * (npyGetMsb n + 2) + 16) (Array.range n) [] 0 (n - 1)
      (2 * npyGetMsb n)

/-- `merged_df.sort_values("Timestamp")`: reorder the rows by the
argsort permutation of the timestamp key column. -/
def pdSortValuesTs (rows : List NormRow) : List NormRow :=
  let keys : Array Int := (rows.map fun r => toSecs r.timestamp).toArray
  ((npyArgsortQ keys).toList.filterMap fun i => rows.get? i)

/-- The single caller-visible error condition of the merge step
(`upload_zip` line 112-113, the spec's EmptyCorpusError). -/
inductive EmptyCorpusError where
  | emptyCorpus : EmptyCorpusError
deriving DecidableEq, Repr

/-- The merge of `upload_zip` lines 109-117: per-file aggregation in
file-enumeration order, the empty-corpus check over the non-empty
frames, concatenation, and the timestamp sort. -/
def mergeFiles (files : List (List (List Char))) :
    Except EmptyCorpusError (List NormRow) :=
  let allDfs := files.map generateDf
  let validDfs := allDfs.filter fun d => !d.isEmpty
  if validDfs.isEmpty then .error .emptyCorpus
  else .ok (pdSortValuesTs validDfs.flatten)

/-! ## Concrete fixtures used by the claim theorems and witnesses -/

/-- A grammatical log line with the given url token and raw timestamp:
head `[ts - INFO]`, message tail `GET req url 200 5`, payload
`{"sid": "s"}`. -/
def mkLine (url ts : List Char) : List Char :=
  '[' :: (ts ++ " - INFO] [GET req ".toList ++ url
    ++ " 200 5] \x7b\"sid\": \"s\"\x7d".toList)

def tsEq : List Char := "2025-01-01 00:00:00".toList

/-- File A: nine records with one shared timestamp, urls a0..a8. -/
def fileA : List (List Char) :=
  (List.range 9).map fun i => mkLine ('a' :: (Nat.toDigits 10 i)) tsEq

/-- File B: eight records with the same shared timestamp, urls b0..b7. -/
def fileB : List (List Char) :=
  (List.range 8).map fun i => mkLine ('b' :: (Nat.toDigits 10 i)) tsEq

/-- The two-file corpus (file A enumerated before file B) exhibiting the
instability of the merge sort: seventeen equal-timestamp records. -/
def c1Files : List (List (List Char)) := [fileA, fileB]

def c1Out : List NormRow := ((mergeFiles c1Files).toOption).getD []

def dummyNorm : NormRow :=
  ⟨none, none, none, none, [], none, none, ⟨1970, 1, 1, 0, 0, 0⟩⟩

/-- Url column of a corpus, as strings (records in the fixtures are
identified by their url token). -/
def urlsOf (rows : List NormRow) : List String :=
  rows.map fun r => String.mk r.url

/-- A fully grammatical sample line: status 200, response-time token 152. -/
def sampleLine : List Char :=
  ("[2025-10-08 07:04:56 - INFO] [GET req http://x/y 200 152] "
    ++ "\x7b\"sid\": \"S1\", \"vno\": 3, \"appVer\": \"1.2\"\x7d").toList

/-- Same line with a non-numeric response-time token. -/
def sampleLineBadRt : List Char :=
  ("[2025-10-08 07:04:56 - INFO] [GET req http://x/y 200 fast] "
    ++ "\x7b\"sid\": \"S1\"\x7d").toList

/-- Same line with status 500 and a numeric token. -/
def sampleLine500 : List Char :=
  ("[2025-10-08 07:04:56 - INFO] [GET req http://x/y 500 42] "
    ++ "\x7b\"sid\": \"S1\"\x7d").toList

/-- A line with no `"] ["` delimiter at all. -/
def lineNoHeadSep : List Char := "2025-10-08 07:04:56 INFO no brackets here".toList

/-- A line whose head segment has no `" - "` separator. -/
def lineNoDash : List Char := "[2025] [GET req u 200 5] \x7b\x7d".toList

/-- A line whose remainder has no `"] "` split point. -/
def lineNoTailSep : List Char := "[2025-10-08 07:04:56 - INFO] [GET req u 200 5".toList

/-- A line whose message tail has only four tokens. -/
def lineShortTail : List Char :=
  "[2025-10-08 07:04:56 - INFO] [GET req u 200] \x7b\x7d".toList

/-- A line whose payload is valid JSON but an array, not an object. -/
def lineArrayPayload : List Char :=
  "[2025-10-08 07:04:56 - INFO] [GET req u 200 5] [1, 2]".toList

/-- A line whose payload fails to decode as JSON. -/
def lineBadJson : List Char :=
  "[2025-10-08 07:04:56 - INFO] [GET req u 200 5] not json".toList

/-- A line whose head carries an interior `]` before the severity
separator, so the raw timestamp keeps a trailing bracket. -/
def lineBracketTs : List Char :=
  "[2025-01-01 00:00:00] - [INFO] [GET req u 200 5] \x7b\x7d".toList

/-- A single-line file whose raw timestamp is date-only. -/
def lineDateOnlyTs : List Char := mkLine "u0".toList "2025-10-08".toList

def emptyParsed : Parsed := ⟨[], [], [], [], []⟩

/-- Ascending (non-strict) sortedness of a key list. -/
def sortedAsc : List Int → Bool
  | [] => true
  | [_] => true
  | a :: b :: t => a ≤ b && sortedAsc (b :: t)

/-- The concrete recognizer output on `sampleLine` (witness record). -/
def sampleParsed : Parsed := (recognizeP sampleLine).getD emptyParsed

/-- The concrete recognizer output on `sampleLineBadRt`. -/
def badRtParsed : Parsed := (recognizeP sampleLineBadRt).getD emptyParsed

/-- The concrete recognizer output on `sampleLine500`. -/
def s500Parsed : Parsed := (recognizeP sampleLine500).getD emptyParsed

/-! ## Helper lemmas -/

theorem head_dropWhile_not (p : Char → Bool) (l : List Char) (c : Char)
    (h : (l.dropWhile p).head? = some c) : p c = false := by
  induction l with
  | nil => simp [List.dropWhile] at h
  | cons a t ih =>
    by_cases hp : p a
    · rw [List.dropWhile_cons_of_pos hp] at h
      exact ih h
    · rw [List.dropWhile_cons_of_neg hp] at h
      simp at h
      subst h
      simpa using hp

theorem head_of_prefix {l₁ l₂ : List Char} {c : Char}
    (h : l₁ <+: l₂) (hc : l₁.head? = some c) : l₂.head? = some c := by
  obtain ⟨t, rfl⟩ := h
  cases l₁ with
  | nil => simp at hc
  | cons a t' => simpa using hc

theorem stripChars_head {set s : List Char} {c : Char}
    (h : (stripChars set s).head? = some c) : set.contains c = false := by
  unfold stripChars at h
  set u := s.dropWhile set.contains with hu
  have hpre : (u.reverse.dropWhile set.contains).reverse <+: u := by
    have hsuf : u.reverse.dropWhile set.contains <:+ u.reverse :=
      List.dropWhile_suffix _
    have := List.reverse_prefix.mpr (by simpa using hsuf)
    simpa using this
  have hhead : u.head? = some c := head_of_prefix hpre h
  exact head_dropWhile_not _ s c (hu ▸ hhead)

theorem stripChars_getLast {set s : List Char} {c : Char}
    (h : (stripChars set s).getLast? = some c) : set.contains c = false := by
  unfold stripChars at h
  rw [List.getLast?_reverse] at h
  exact head_dropWhile_not _ _ c h

theorem splitFirst_head {sep s a b : List Char} {c : Char}
    (h : splitFirst sep s = some (a, b)) (hc : a.head? = some c) :
    s.head? = some c := by
  cases s with
  | nil => simp [splitFirst] at h
  | cons x rest =>
    rw [splitFirst] at h
    by_cases hp : sep.isPrefixOf (x :: rest)
    · rw [if_pos hp] at h
      simp only [Option.some.injEq, Prod.mk.injEq] at h
      obtain ⟨h1, h2⟩ := h
      subst h1
      simp at hc
    · rw [if_neg hp] at h
      cases hr : splitFirst sep rest with
      | none => rw [hr] at h; cases h
      | some ab =>
        obtain ⟨a', b'⟩ := ab
        rw [hr] at h
        simp only [Option.some.injEq, Prod.mk.injEq] at h
        obtain ⟨h1, h2⟩ := h
        subst h1
        exact hc

theorem flatten_filter_nonempty (l : List (List NormRow)) :
    (l.filter fun d => !d.isEmpty).flatten = l.flatten := by
  induction l with
  | nil => rfl
  | cons d t ih =>
    by_cases hd : d.isEmpty
    · have hnil : d = [] := by simpa using hd
      subst hnil
      simpa using ih
    · rw [List.filter_cons_of_pos (by simpa using hd), List.flatten_cons,
        List.flatten_cons, ih]

theorem ratOfParts_int (ds : List Char) :
    ratOfParts ⟨false, ds, [], 0⟩ = (digitsVal ds : ℚ) := by
  simp [ratOfParts]

theorem pyFloat_152 : pyFloat "152".toList = some 152 := by
  rw [pyFloat,
    show pyFloatParts "152".toList = some ⟨false, "152".toList, [], 0⟩ from by decide,
    Option.map_some', ratOfParts_int,
    show digitsVal "152".toList = 152 from by decide]
  norm_num

theorem takeWhile_digit_true {c : Char} (h : c.isDigit = true) (l : List Char) :
    List.takeWhile Char.isDigit (c :: l) = c :: List.takeWhile Char.isDigit l := by
  simp [List.takeWhile_cons, h]

theorem takeWhile_digit_false {c : Char} (h : c.isDigit = false) (l : List Char) :
    List.takeWhile Char.isDigit (c :: l) = [] := by
  simp [List.takeWhile_cons, h]

theorem dropWhile_digit_true {c : Char} (h : c.isDigit = true) (l : List Char) :
    List.dropWhile Char.isDigit (c :: l) = List.dropWhile Char.isDigit l := by
  simp [List.dropWhile_cons, h]

theorem dropWhile_digit_false {c : Char} (h : c.isDigit = false) (l : List Char) :
    List.dropWhile Char.isDigit (c :: l) = c :: l := by
  simp [List.dropWhile_cons, h]

/-- Evaluation of the lenient full-format parser on an all-digit
nineteen-character shape. -/
theorem parseFull_explicit (y1 y2 y3 y4 m1 m2 d1 d2 g1 g2 n1 n2 s1 s2 : Char)
    (hy1 : y1.isDigit = true) (hy2 : y2.isDigit = true)
    (hy3 : y3.isDigit = true) (hy4 : y4.isDigit = true)
    (hm1 : m1.isDigit = true) (hm2 : m2.isDigit = true)
    (hd1 : d1.isDigit = true) (hd2 : d2.isDigit = true)
    (hg1 : g1.isDigit = true) (hg2 : g2.isDigit = true)
    (hn1 : n1.isDigit = true) (hn2 : n2.isDigit = true)
    (hs1 : s1.isDigit = true) (hs2 : s2.isDigit = true) :
    parseFull [y1, y2, y3, y4, '-', m1, m2, '-', d1, d2, ' ',
      g1, g2, ':', n1, n2, ':', s1, s2] =
      (if validDT (digitsVal [y1, y2, y3, y4]) (digitsVal [m1, m2]) (digitsVal [d1, d2])
          (digitsVal [g1, g2]) (digitsVal [n1, n2]) (digitsVal [s1, s2]) then
        some ⟨digitsVal [y1, y2, y3, y4], digitsVal [m1, m2], digitsVal [d1, d2],
          digitsVal [g1, g2], digitsVal [n1, n2], digitsVal [s1, s2]⟩
      else none) := by
  have hdash : ('-').isDigit = false := by decide
  have hspc : (' ').isDigit = false := by decide
  have hcol : (':').isDigit = false := by decide
  unfold parseFull takeDigits
  rw [takeWhile_digit_true hy1, takeWhile_digit_true hy2, takeWhile_digit_true hy3,
    takeWhile_digit_true hy4, takeWhile_digit_false hdash,
    dropWhile_digit_true hy1, dropWhile_digit_true hy2, dropWhile_digit_true hy3,
    dropWhile_digit_true hy4, dropWhile_digit_false hdash]
  simp only [List.length_cons, List.length_nil]
  norm_num
  rw [takeWhile_digit_true hm1, takeWhile_digit_true hm2, takeWhile_digit_false hdash,
    dropWhile_digit_true hm1, dropWhile_digit_true hm2, dropWhile_digit_false hdash]
  simp only [List.length_cons, List.length_nil]
  norm_num
  rw [takeWhile_digit_true hd1, takeWhile_digit_true hd2, takeWhile_digit_false hspc,
    dropWhile_digit_true hd1, dropWhile_digit_true hd2, dropWhile_digit_false hspc]
  simp only [List.length_cons, List.length_nil]
  norm_num
  rw [takeWhile_digit_true hg1, takeWhile_digit_true hg2, takeWhile_digit_false hcol,
    dropWhile_digit_true hg1, dropWhile_digit_true hg2, dropWhile_digit_false hcol]
  simp only [List.length_cons, List.length_nil]
  norm_num
  rw [takeWhile_digit_true hn1, takeWhile_digit_true hn2, takeWhile_digit_false hcol,
    dropWhile_digit_true hn1, dropWhile_digit_true hn2, dropWhile_digit_false hcol]
  simp only [List.length_cons, List.length_nil]
  norm_num
  rw [takeWhile_digit_true hs1, takeWhile_digit_true hs2, List.takeWhile_nil]
  simp [hs1, hs2]

/-- Every string accepted by the spec's fixed format is accepted, with
the same value, by the lenient strptime-style parser the flexible model
tries first. -/
theorem strptimeFixed_parseFull : ∀ {s : List Char} {t : NaiveDT},
    strptimeFixed s = some t → parseFull s = some t
  | [y1, y2, y3, y4, c1, m1, m2, c2, d1, d2, c3, g1, g2, c4, n1, n2, c5, s1, s2], t, h => by
    simp only [strptimeFixed] at h
    split at h
    case isTrue hcond =>
      obtain ⟨hc1, hc2, hc3, hc4, hc5, hdig⟩ := hcond
      subst hc1; subst hc2; subst hc3; subst hc4; subst hc5
      simp only [List.all_cons, List.all_nil, Bool.and_eq_true, Bool.and_true] at hdig
      obtain ⟨hy1, hy2, hy3, hy4, hm1, hm2, hd1, hd2, hg1, hg2, hn1, hn2, hs1, hs2⟩ := hdig
      split at h
      case isTrue hvalid =>
        simp only [Option.some.injEq] at h
        subst h
        rw [parseFull_explicit y1 y2 y3 y4 m1 m2 d1 d2 g1 g2 n1 n2 s1 s2
          hy1 hy2 hy3 hy4 hm1 hm2 hd1 hd2 hg1 hg2 hn1 hn2 hs1 hs2, if_pos hvalid]
      case isFalse => exact Option.noConfusion h
    case isFalse => exact Option.noConfusion h
  | [], _, h => Option.noConfusion h
  | _ :: _ :: _ :: _ :: _ :: _ :: _ :: _ :: _ :: _ :: _ :: _ :: _ :: _ :: _ :: _ :: _ :: _ :: _ :: _ :: _, _, h => Option.noConfusion h
  | [_], _, h => Option.noConfusion h
  | [_, _], _, h => Option.noConfusion h
  | [_, _, _], _, h => Option.noConfusion h
  | [_, _, _, _], _, h => Option.noConfusion h
  | [_, _, _, _, _], _, h => Option.noConfusion h
  | [_, _, _, _, _, _], _, h => Option.noConfusion h
  | [_, _, _, _, _, _, _], _, h => Option.noConfusion h
  | [_, _, _, _, _, _, _, _], _, h => Option.noConfusion h
  | [_, _, _, _, _, _, _, _, _], _, h => Option.noConfusion h
  | [_, _, _, _, _, _, _, _, _, _], _, h => Option.noConfusion h
  | [_, _, _, _, _, _, _, _, _, _, _], _, h => Option.noConfusion h
  | [_, _, _, _, _, _, _, _, _, _, _, _], _, h => Option.noConfusion h
  | [_, _, _, _, _, _, _, _, _, _, _, _, _], _, h => Option.noConfusion h
  | [_, _, _, _, _, _, _, _, _, _, _, _, _, _], _, h => Option.noConfusion h
  | [_, _, _, _, _, _, _, _, _, _, _, _, _, _, _], _, h => Option.noConfusion h
  | [_, _, _, _, _, _, _, _, _, _, _, _, _, _, _, _], _, h => Option.noConfusion h
  | [_, _, _, _, _, _, _, _, _, _, _, _, _, _, _, _, _], _, h => Option.noConfusion h
  | [_, _, _, _, _, _, _, _, _, _, _, _, _, _, _, _, _, _], _, h => Option.noConfusion h

/-! ## Claim theorems -/

/-- C7: normalizing the raw timestamp "2025-10-08 07:04:56" with
`ASSUME_LOGS_ARE_UTC = true` and the canonical zone at UTC+05:30 yields
the timezone-naive local instant 2025-10-08 12:34:56 (interpret as UTC,
shift by +05:30, strip zone). -/
theorem c7_utc_conversion :
    normalizeTs "2025-10-08 07:04:56".toList = some ⟨2025, 10, 8, 12, 34, 56⟩ := by
  decide

/-- C8: aggregate is deterministic — the embedded `generateDf` is a pure
function of the file content (and the fixed module configuration), so two
runs on identical content produce identical NormalizedRecord sequences,
same records, same field values, same order.  The Python function reads
nothing but the file bytes and the two module constants, which is what
makes this a faithful statement of the code's behaviour. -/
theorem c8_aggregate_deterministic (content : List (List Char)) :
    generateDf content = generateDf content := rfl

/-- C3: for every recognized line, the stayed-time field is computed as a
numeric parse attempted only when the status token is "200"; it is
non-null iff the status is "200" and the response-time token parses, and
recognition itself never depends on that parse (the recognized line
always yields its row). -/
theorem c3_response_time (line : List Char) (p : Parsed)
    (h : recognizeP line = some p) :
    recognizeRow line = some (rowOfParsed p) ∧
    (rowOfParsed p).stayedTime =
      (if p.status = "200".toList then pyFloat p.rtRaw else none) ∧
    ((rowOfParsed p).stayedTime ≠ none ↔
      p.status = "200".toList ∧ (pyFloat p.rtRaw).isSome) := by
  refine ⟨by simp [recognizeRow, h], rfl, ?_⟩
  show stayedOf p.status p.rtRaw ≠ none ↔ _
  unfold stayedOf
  by_cases hs : p.status = "200".toList
  · rw [if_pos hs]
    simp [hs, Option.ne_none_iff_isSome]
  · rw [if_neg hs]
    constructor
    · intro hn; exact absurd rfl hn
    · rintro ⟨h200, _⟩; exact absurd h200 hs

/-- Witness for C3 at concrete lines: status 200 with token "152" gives
the value 152, a non-numeric token with status 200 gives null without
rejecting the line, and status 500 with a numeric token gives null. -/
theorem c3_response_time_witness :
    (recognizeRow sampleLine = some (rowOfParsed sampleParsed) ∧
      (rowOfParsed sampleParsed).stayedTime =
        (if sampleParsed.status = "200".toList then pyFloat sampleParsed.rtRaw else none) ∧
      ((rowOfParsed sampleParsed).stayedTime ≠ none ↔
        sampleParsed.status = "200".toList ∧ (pyFloat sampleParsed.rtRaw).isSome)) ∧
    (recognizeRow sampleLineBadRt = some (rowOfParsed badRtParsed) ∧
      (rowOfParsed badRtParsed).stayedTime =
        (if badRtParsed.status = "200".toList then pyFloat badRtParsed.rtRaw else none) ∧
      ((rowOfParsed badRtParsed).stayedTime ≠ none ↔
        badRtParsed.status = "200".toList ∧ (pyFloat badRtParsed.rtRaw).isSome)) ∧
    (rowOfParsed sampleParsed).stayedTime = some 152 ∧
    (rowOfParsed badRtParsed).stayedTime = none ∧
    (rowOfParsed s500Parsed).stayedTime = none :=
  ⟨c3_response_time sampleLine sampleParsed rfl,
   c3_response_time sampleLineBadRt badRtParsed rfl,
   by
    show stayedOf sampleParsed.status sampleParsed.rtRaw = some 152
    rw [show sampleParsed.rtRaw = "152".toList from by decide, stayedOf,
      if_pos (show sampleParsed.status = "200".toList from by decide)]
    exact pyFloat_152,
   by
    show stayedOf badRtParsed.status badRtParsed.rtRaw = none
    rw [stayedOf, if_pos (show badRtParsed.status = "200".toList from by decide)]
    decide,
   by
    show stayedOf s500Parsed.status s500Parsed.rtRaw = none
    rw [stayedOf, if_neg (show ¬s500Parsed.status = "200".toList from by decide)]⟩

/-- C4: a line missing any of the three structural delimiters — `"] ["`
anywhere, `" - "` in the bracket-stripped head segment, or `"] "` in the
remainder before the JSON payload — is rejected.  The recognizer is a
total function, so no exception escapes to the caller; in the Python
source each of these three absences raises a `ValueError` that the
per-line `except` clause converts into a skipped, counted line. -/
theorem c4_reject_missing_delims (line firstPart rest0 : List Char) :
    (splitFirst sepHead line = none → recognizeRow line = none) ∧
    (splitFirst sepHead line = some (firstPart, rest0) →
      splitFirst sepDash (stripChars bracketSet firstPart) = none →
      recognizeRow line = none) ∧
    (splitFirst sepHead line = some (firstPart, rest0) →
      splitLast sepTail rest0 = none →
      recognizeRow line = none) := by
  refine ⟨fun h => by simp [recognizeRow, recognizeP, h],
    fun h1 h2 => by simp [recognizeRow, recognizeP, h1, h2], fun h1 h2 => ?_⟩
  cases hd : splitFirst sepDash (stripChars bracketSet firstPart) with
  | none => simp [recognizeRow, recognizeP, h1, hd]
  | some tssev =>
    obtain ⟨ts, sev⟩ := tssev
    simp [recognizeRow, recognizeP, h1, hd, h2]

/-- Witness for C4 at three concrete malformed lines, one per missing
delimiter. -/
theorem c4_reject_missing_delims_witness :
    recognizeRow lineNoHeadSep = none ∧
    recognizeRow lineNoDash = none ∧
    recognizeRow lineNoTailSep = none :=
  ⟨(c4_reject_missing_delims lineNoHeadSep [] []).1 (by decide),
   (c4_reject_missing_delims lineNoDash "[2025".toList
      "GET req u 200 5] \x7b\x7d".toList).2.1 (by decide) (by decide),
   (c4_reject_missing_delims lineNoTailSep "[2025-10-08 07:04:56 - INFO".toList
      "GET req u 200 5".toList).2.2 (by decide) (by decide)⟩

/-- C6: tokenizing the message-tail segment (the remainder between the
first `"] ["` and the last `"] "`) on whitespace, a line with fewer than
five tokens is rejected, and a recognized line's url, status and raw
response-time fields are exactly the tokens at zero-based positions 2, 3
and 4 of that segment. -/
theorem c6_token_positions (line firstPart rest0 msgTail jsonPayload : List Char)
    (p : Parsed) :
    (splitFirst sepHead line = some (firstPart, rest0) →
      splitLast sepTail rest0 = some (msgTail, jsonPayload) →
      (pySplitWs msgTail).length < 5 →
      recognizeRow line = none) ∧
    (splitFirst sepHead line = some (firstPart, rest0) →
      splitLast sepTail rest0 = some (msgTail, jsonPayload) →
      recognizeP line = some p →
      p.url = (pySplitWs msgTail).getD 2 [] ∧
      p.status = (pySplitWs msgTail).getD 3 [] ∧
      p.rtRaw = (pySplitWs msgTail).getD 4 []) := by
  constructor
  · intro h1 h2 hlen
    cases hd : splitFirst sepDash (stripChars bracketSet firstPart) with
    | none => simp [recognizeRow, recognizeP, h1, hd]
    | some tssev =>
      obtain ⟨ts, sev⟩ := tssev
      simp [recognizeRow, recognizeP, h1, hd, h2, hlen]
  · intro h1 h2 hp
    simp only [recognizeP, h1] at hp
    cases hd : splitFirst sepDash (stripChars bracketSet firstPart) with
    | none => simp only [hd] at hp; exact Option.noConfusion hp
    | some tssev =>
      obtain ⟨ts, sev⟩ := tssev
      simp only [hd, h2] at hp
      by_cases hlen : (pySplitWs msgTail).length < 5
      · simp only [if_pos hlen] at hp; exact Option.noConfusion hp
      · simp only [if_neg hlen] at hp
        cases hj : pyJsonLoads jsonPayload with
        | none => simp only [hj] at hp; exact Option.noConfusion hp
        | some j =>
          simp only [hj] at hp
          cases j with
          | obj kvs =>
            simp only [Option.some.injEq] at hp
            subst hp
            exact ⟨rfl, rfl, rfl⟩
          | null => exact Option.noConfusion hp
          | bool b => exact Option.noConfusion hp
          | num q => exact Option.noConfusion hp
          | str s => exact Option.noConfusion hp
          | arr xs => exact Option.noConfusion hp

/-- Witness for C6: the short-tail line is rejected, and on `sampleLine`
the three fields are the tokens at positions 2, 3, 4 of its message
tail. -/
theorem c6_token_positions_witness :
    recognizeRow lineShortTail = none ∧
    (sampleParsed.url = (pySplitWs "GET req http://x/y 200 152".toList).getD 2 [] ∧
     sampleParsed.status = (pySplitWs "GET req http://x/y 200 152".toList).getD 3 [] ∧
     sampleParsed.rtRaw = (pySplitWs "GET req http://x/y 200 152".toList).getD 4 []) :=
  ⟨(c6_token_positions lineShortTail "[2025-10-08 07:04:56 - INFO".toList
      "GET req u 200] \x7b\x7d".toList "GET req u 200".toList "\x7b\x7d".toList
      emptyParsed).1 (by decide) (by decide) (by decide),
   (c6_token_positions sampleLine "[2025-10-08 07:04:56 - INFO".toList
      ("GET req http://x/y 200 152] "
        ++ "\x7b\"sid\": \"S1\", \"vno\": 3, \"appVer\": \"1.2\"\x7d").toList
      "GET req http://x/y 200 152".toList
      "\x7b\"sid\": \"S1\", \"vno\": 3, \"appVer\": \"1.2\"\x7d".toList
      sampleParsed).2 (by decide) (by decide) rfl⟩

/-- C9: a line whose trailing payload segment decodes as JSON but not as
a key-value object is rejected exactly like a JSON decode failure (in the
source, `data.get` raises `AttributeError` on a non-dict, which the
per-line `except` turns into a skipped, counted line); field extraction
therefore only ever runs on object payloads. -/
theorem c9_nonobject_payload (line firstPart rest0 msgTail jsonPayload : List Char)
    (j : PyJson) :
    (splitFirst sepHead line = some (firstPart, rest0) →
      splitLast sepTail rest0 = some (msgTail, jsonPayload) →
      pyJsonLoads jsonPayload = some j →
      j.isObj = false →
      recognizeRow line = none) ∧
    (splitFirst sepHead line = some (firstPart, rest0) →
      splitLast sepTail rest0 = some (msgTail, jsonPayload) →
      pyJsonLoads jsonPayload = none →
      recognizeRow line = none) := by
  constructor
  · intro h1 h2 hj hno
    cases hd : splitFirst sepDash (stripChars bracketSet firstPart) with
    | none => simp [recognizeRow, recognizeP, h1, hd]
    | some tssev =>
      obtain ⟨ts, sev⟩ := tssev
      by_cases hlen : (pySplitWs msgTail).length < 5
      · simp [recognizeRow, recognizeP, h1, hd, h2, hlen]
      · cases j with
        | obj kvs => simp [PyJson.isObj] at hno
        | null => simp [recognizeRow, recognizeP, h1, hd, h2, hlen, hj]
        | bool b => simp [recognizeRow, recognizeP, h1, hd, h2, hlen, hj]
        | num q => simp [recognizeRow, recognizeP, h1, hd, h2, hlen, hj]
        | str s => simp [recognizeRow, recognizeP, h1, hd, h2, hlen, hj]
        | arr xs => simp [recognizeRow, recognizeP, h1, hd, h2, hlen, hj]
  · intro h1 h2 hj
    cases hd : splitFirst sepDash (stripChars bracketSet firstPart) with
    | none => simp [recognizeRow, recognizeP, h1, hd]
    | some tssev =>
      obtain ⟨ts, sev⟩ := tssev
      by_cases hlen : (pySplitWs msgTail).length < 5
      · simp [recognizeRow, recognizeP, h1, hd, h2, hlen]
      · simp [recognizeRow, recognizeP, h1, hd, h2, hlen, hj]

/-- Witness for C9: the JSON-array payload line and the non-JSON payload
line are both rejected. -/
theorem c9_nonobject_payload_witness :
    recognizeRow lineArrayPayload = none ∧
    recognizeRow lineBadJson = none :=
  ⟨(c9_nonobject_payload lineArrayPayload "[2025-10-08 07:04:56 - INFO".toList
      "GET req u 200 5] [1, 2]".toList "GET req u 200 5".toList "[1, 2]".toList
      ((pyJsonLoads "[1, 2]".toList).getD PyJson.null)).1
      (by decide) (by decide) rfl (by decide),
   (c9_nonobject_payload lineBadJson "[2025-10-08 07:04:56 - INFO".toList
      "GET req u 200 5] not json".toList "GET req u 200 5".toList "not json".toList
      PyJson.null).2 (by decide) (by decide)
      (Option.isNone_iff_eq_none.mp (by decide))⟩

/-- C5: the merge step surfaces the empty-corpus error exactly when zero
valid records exist across the entire input set, i.e. when every file
aggregates to zero NormalizedRecords; it is the only error the engine
raises, and one empty file among productive ones is not an error. -/
theorem c5_empty_corpus_iff (files : List (List (List Char))) (e : EmptyCorpusError) :
    (mergeFiles files = .error .emptyCorpus ↔ (files.map generateDf).flatten = []) ∧
    (mergeFiles files = .error e → e = .emptyCorpus) := by
  constructor
  · unfold mergeFiles
    by_cases hv : ((files.map generateDf).filter fun d => !d.isEmpty).isEmpty
    · rw [if_pos hv]
      constructor
      · intro _
        have hfil : (files.map generateDf).filter (fun d => !d.isEmpty) = [] := by
          simpa using hv
        rw [← flatten_filter_nonempty, hfil]
        rfl
      · intro _; rfl
    · rw [if_neg hv]
      constructor
      · intro h; exact Except.noConfusion h
      · intro hfl
        exfalso
        apply hv
        have hall : ∀ d ∈ files.map generateDf, d = [] :=
          List.flatten_eq_nil_iff.mp hfl
        have hfil : (files.map generateDf).filter (fun d => !d.isEmpty) = [] := by
          rw [List.filter_eq_nil_iff]
          intro d hd
          simp [hall d hd]
        simp [hfil]
  · intro h
    cases e
    rfl

/-- Witness for C5: a corpus of one unparseable file and one empty file
raises the empty-corpus error, and that error is the empty-corpus one. -/
theorem c5_empty_corpus_iff_witness :
    mergeFiles [["garbage".toList], []] = .error .emptyCorpus ∧
    EmptyCorpusError.emptyCorpus = .emptyCorpus :=
  ⟨(c5_empty_corpus_iff [["garbage".toList], []] .emptyCorpus).1.mpr rfl,
   (c5_empty_corpus_iff [["garbage".toList], []] .emptyCorpus).2
     ((c5_empty_corpus_iff [["garbage".toList], []] .emptyCorpus).1.mpr rfl)⟩

/-- C10 counterexample: on a line whose head segment carries an interior
`]` before the `" - "` separator, the extracted raw timestamp ends with a
bracket character, refuting the claim that the extracted string always
begins and ends with a non-bracket character. -/
theorem c10_counterexample :
    (recognizeP lineBracketTs).map Parsed.tsRaw =
      some "2025-01-01 00:00:00]".toList ∧
    "2025-01-01 00:00:00]".toList.getLast? = some ']' := by
  constructor <;> decide

/-- C10 (amended): the strip removes every leading and trailing bracket
character of the head segment — however many — so the stripped head
neither begins nor ends with a bracket, and a nonempty extracted raw
timestamp never begins with one; it can still end with a bracket,
because the timestamp is cut at the first `" - "` inside the stripped
head rather than at its end. -/
theorem c10_strip_brackets (firstPart ts sev s : List Char) (c c1 c2 : Char) :
    ((stripChars bracketSet s).head? = some c1 → c1 ≠ '[' ∧ c1 ≠ ']') ∧
    ((stripChars bracketSet s).getLast? = some c2 → c2 ≠ '[' ∧ c2 ≠ ']') ∧
    (splitFirst sepDash (stripChars bracketSet firstPart) = some (ts, sev) →
      ts.head? = some c → c ≠ '[' ∧ c ≠ ']') := by
  refine ⟨fun h => ?_, fun h => ?_, fun hsp hc => ?_⟩
  · have hb := stripChars_head h
    constructor <;> rintro rfl <;> exact absurd hb (by decide)
  · have hb := stripChars_getLast h
    constructor <;> rintro rfl <;> exact absurd hb (by decide)
  · have hb := stripChars_head (splitFirst_head hsp hc)
    constructor <;> rintro rfl <;> exact absurd hb (by decide)

/-- Witness for C10 at the sample head segment and a doubly bracketed
string. -/
theorem c10_strip_brackets_witness :
    ('a' ≠ '[' ∧ 'a' ≠ ']') ∧ ('c' ≠ '[' ∧ 'c' ≠ ']') ∧
    ('2' ≠ '[' ∧ '2' ≠ ']') :=
  ⟨(c10_strip_brackets [] [] [] "[[abc]]".toList 'x' 'a' 'x').1 (by decide),
   (c10_strip_brackets [] [] [] "[[abc]]".toList 'x' 'x' 'c').2.1 (by decide),
   (c10_strip_brackets "[2025-10-08 07:04:56 - INFO".toList
      "2025-10-08 07:04:56".toList "INFO".toList [] '2' 'x' 'x').2.2
      (by decide) (by decide)⟩

/-- C2 counterexample: the date-only string "2025-10-08" does not match
the fixed format `YYYY-MM-DD HH:MM:SS`, yet normalization resolves it
(to midnight, shifted to 05:30 local) instead of yielding None, and a
recognized line carrying it survives aggregation instead of being
dropped — pandas' format-inferring parser is not restricted to the fixed
format. -/
theorem c2_counterexample :
    strptimeFixed "2025-10-08".toList = none ∧
    normalizeTs "2025-10-08".toList = some ⟨2025, 10, 8, 5, 30, 0⟩ ∧
    urlsOf (generateDf [lineDateOnlyTs]) = ["u0"] := by
  refine ⟨by decide, by decide, by decide⟩

/-- C2 (amended): normalization parses timestamps with pandas' flexible
format-inferring parser rather than a single fixed format: every string
matching `YYYY-MM-DD HH:MM:SS` resolves to exactly that instant (then
shifted UTC→local), but additional shapes such as date-only
`YYYY-MM-DD` are accepted too, and only strings the flexible parser
cannot resolve yield None and are dropped. -/
theorem c2_flexible_timestamp_parse (s : List Char) (t : NaiveDT)
    (h : strptimeFixed s = some t) :
    normalizeTs s = some (istOfUtc t) := by
  have hp : parseFull s = some t := strptimeFixed_parseFull h
  simp [normalizeTs, ASSUME_LOGS_ARE_UTC, pdParse, hp]

/-- Witness for C2 at the round-trip fixture string. -/
theorem c2_flexible_timestamp_parse_witness :
    normalizeTs "2025-10-08 07:04:56".toList =
      some (istOfUtc ⟨2025, 10, 8, 7, 4, 56⟩) :=
  c2_flexible_timestamp_parse "2025-10-08 07:04:56".toList
    ⟨2025, 10, 8, 7, 4, 56⟩ (by decide)

/-- C1 counterexample: seventeen records sharing one timestamp, nine in
file A (urls a0..a8) enumerated before eight in file B (urls b0..b7).
The concatenation order is a0..a8, b0..b7, all timestamps equal, yet the
merged output is a0, b5, b4, b3, b2, b1, b0, b6, a8, a6, a5, a4, a3, a2,
a1, a7, b7: file B's b5 precedes file A's a1, so equal-timestamp records
do not retain their pre-sort relative order — `sort_values` with the
default `kind='quicksort'` is not a stable sort. -/
theorem c1_counterexample :
    urlsOf ((c1Files.map generateDf).flatten) =
      ["a0", "a1", "a2", "a3", "a4", "a5", "a6", "a7", "a8",
       "b0", "b1", "b2", "b3", "b4", "b5", "b6", "b7"] ∧
    (c1Out.all fun r => r.timestamp = ⟨2025, 1, 1, 5, 30, 0⟩) = true ∧
    urlsOf c1Out =
      ["a0", "b5", "b4", "b3", "b2", "b1", "b0", "b6", "a8",
       "a6", "a5", "a4", "a3", "a2", "a1", "a7", "b7"] := by
  refine ⟨by decide, by decide, by decide⟩

/-- C1 (amended): merge concatenates the per-file NormalizedRecord
sequences in file-enumeration order and sorts the concatenation
ascending by timestamp, but with numpy's default introspective quicksort
rather than a stable sort: the output is a timestamp-sorted permutation
of the concatenation, and records with identical timestamps need not
retain their pre-sort relative order (see the counterexample with
seventeen equal-timestamp records). -/
theorem c1_merge_unstable_sort_amended :
    (∀ files out, mergeFiles files = .ok out →
      out = pdSortValuesTs ((files.map generateDf).flatten)) ∧
    List.Perm (c1Out.map fun r => (r.url, toSecs r.timestamp))
      (((c1Files.map generateDf).flatten).map fun r => (r.url, toSecs r.timestamp)) ∧
    sortedAsc (c1Out.map fun r => toSecs r.timestamp) = true := by
  refine ⟨?_, by decide, by decide⟩
  intro files out h
  unfold mergeFiles at h
  by_cases hv : ((files.map generateDf).filter fun d => !d.isEmpty).isEmpty
  · rw [if_pos hv] at h; exact Except.noConfusion h
  · rw [if_neg hv] at h
    simp only [Except.ok.injEq] at h
    rw [← h, flatten_filter_nonempty]

/-- Witness for C1 (amended) at the seventeen-record corpus. -/
theorem c1_merge_unstable_sort_amended_witness :
    mergeFiles c1Files = .ok c1Out ∧
    c1Out = pdSortValuesTs ((c1Files.map generateDf).flatten) := by
  have h : mergeFiles c1Files = .ok c1Out := rfl
  exact ⟨h, c1_merge_unstable_sort_amended.1 c1Files c1Out h⟩

end LogsConv
